import Mathlib

/-!
Shallow embedding of the activity-tracker backend (`src/main.py`).

Conventions of the embedding:

* JSON documents are duck-typed in the source; records are modelled as
  structures whose optional fields are `Option`-valued.  A field that the
  Python code reads with `dict.get` and a fallback is modelled as an
  `Option` field read with `Option.getD`.
* Python truthiness on `Optional[str]` / `Optional[int]` values (used by the
  guards `if a.get("end_time"):` etc.) is modelled explicitly: `None` and
  `""` (resp. `0`) are falsy.
* The wall clock (`datetime.utcnow().replace(microsecond=0)`) is a parameter
  of every operation that reads it, already truncated to second precision.
* `raise HTTPException` aborts the handler before any write, so fallible
  operations return `Except ApiError`; an `error` result leaves the stored
  collection unchanged (made explicit by the `applyLifeOp` wrapper below).
-/

/-- A UTC wall-clock instant at second precision, as produced by
`datetime.utcnow().replace(microsecond=0)`. -/
structure DateTime where
  year : Nat
  month : Nat
  day : Nat
  hour : Nat
  minute : Nat
  second : Nat
deriving DecidableEq, Repr

/-- Gregorian leap-year rule, as used by Python's `datetime`. -/
def isLeap (y : Nat) : Bool :=
  (y % 4 == 0 && y % 100 != 0) || (y % 400 == 0)

/-- Number of days in a month of the proleptic Gregorian calendar. -/
def daysInMonth (y m : Nat) : Nat :=
  if m == 2 then (if isLeap y then 29 else 28)
  else if m == 4 || m == 6 || m == 9 || m == 11 then 30
  else 31

/-- Days since the Unix epoch (1970-01-01) of a Gregorian date with
`y ≥ 1`, via the standard era-based civil-calendar computation; this is the
day-number arithmetic underlying Python `datetime` subtraction. -/
def daysFromCivil (y m d : Nat) : Int :=
  let y2 := if m ≤ 2 then y - 1 else y
  let era := y2 / 400
  let yoe := y2 % 400
  let mp := (m + 9) % 12
  let doy := (153 * mp + 2) / 5 + d - 1
  let doe := yoe * 365 + yoe / 4 - yoe / 100 + doy
  (era * 146097 + doe : Int) - 719468

/-- Seconds since the Unix epoch; `datetime` subtraction in the source
(`(end_time - start).total_seconds()`) equals the difference of this. -/
def epochSecs (t : DateTime) : Int :=
  daysFromCivil t.year t.month t.day * 86400
    + t.hour * 3600 + t.minute * 60 + t.second

/-- Zero-padded two-digit rendering of a calendar component. -/
def pad2 (n : Nat) : String :=
  if n < 10 then "0" ++ toString n else toString n

/-- Four-digit year rendering (years of interest are ≥ 1000). -/
def pad4 (n : Nat) : String :=
  if n < 10 then "000" ++ toString n
  else if n < 100 then "00" ++ toString n
  else if n < 1000 then "0" ++ toString n
  else toString n

/-- Rendering `datetime.isoformat()` on a microsecond-free value:
`YYYY-MM-DDTHH:MM:SS`. -/
def isoFormat (t : DateTime) : String :=
  pad4 t.year ++ "-" ++ pad2 t.month ++ "-" ++ pad2 t.day ++ "T"
    ++ pad2 t.hour ++ ":" ++ pad2 t.minute ++ ":" ++ pad2 t.second

/-- Source helper `_iso_now()`: the current UTC time truncated to seconds,
ISO-rendered with a `"Z"` suffix. -/
def isoNow (now : DateTime) : String :=
  isoFormat now ++ "Z"

/-- Numeric value of a list of decimal digit characters. -/
def digitsVal (cs : List Char) : Nat :=
  cs.foldl (fun acc c => acc * 10 + (c.toNat - 48)) 0

/-- Parsing `datetime.fromisoformat` restricted to the canonical second-precision
shape `YYYY-MM-DDTHH:MM:SS` that this backend writes (the only shape the
lifecycle engine ever stores); returns `none` on anything malformed, which
in the source surfaces as an uncaught `ValueError`. -/
def parseIso (s : String) : Option DateTime :=
  match s.data with
  | [y1, y2, y3, y4, '-', m1, m2, '-', d1, d2, 'T',
     h1, h2, ':', n1, n2, ':', s1, s2] =>
    if ([y1, y2, y3, y4, m1, m2, d1, d2, h1, h2, n1, n2, s1, s2].all
          Char.isDigit) then
      let y := digitsVal [y1, y2, y3, y4]
      let mo := digitsVal [m1, m2]
      let d := digitsVal [d1, d2]
      let h := digitsVal [h1, h2]
      let mi := digitsVal [n1, n2]
      let se := digitsVal [s1, s2]
      if 1 ≤ y ∧ 1 ≤ mo ∧ mo ≤ 12 ∧ 1 ≤ d ∧ d ≤ daysInMonth y mo
          ∧ h ≤ 23 ∧ mi ≤ 59 ∧ se ≤ 59 then
        some ⟨y, mo, d, h, mi, se⟩
      else none
    else none
  | _ => none

/-- Python `str.strip()` (no argument): removes leading and trailing
whitespace (modelled for the ASCII whitespace of `Char.isWhitespace`). -/
def pyStrip (s : String) : String :=
  ⟨((s.data.dropWhile Char.isWhitespace).reverse.dropWhile
      Char.isWhitespace).reverse⟩

/-- Python `str.lower()` (code points of interest are ASCII). -/
def pyLower (s : String) : String :=
  ⟨s.data.map Char.toLower⟩

/-- Python slice `s[0:n]` on a string. -/
def pySlice (s : String) (n : Nat) : String :=
  ⟨s.data.take n⟩

/-- Python `s.replace("Z", "")` — the pattern is the single character
`'Z'`, so every occurrence of that character is removed. -/
def replaceZ (s : String) : String :=
  ⟨s.data.filter (fun c => !(c == 'Z'))⟩

/-- Stored record of the `activity_types.json` collection.  The source
reads `activity_category` / `activity_name` with `it.get(field, "")`, so
they are modelled as optional. -/
structure ActivityType where
  id : String
  activity_category : Option String
  activity_name : Option String
deriving DecidableEq, Repr

/-- Stored record of the `activities.json` collection (`ActivityRecord`
pydantic model / the dicts built by `start_activity`). -/
structure ActivityRecord where
  id : String
  activity_category : Option String
  activity_name : String
  start_time : String
  end_time : Option String
  duration_seconds : Option Int
deriving DecidableEq, Repr

/-- Request body for creating/updating an activity type
(`ActivityTypeIn`). -/
structure ActivityTypeIn where
  activity_category : String
  activity_name : String
deriving DecidableEq, Repr

/-- Request body for `start_activity` (`ActivityStartIn`). -/
structure ActivityStartIn where
  activity_category : String
  activity_name : String
deriving DecidableEq, Repr

/-- The `HTTPException`s raised by the handlers, plus `parseError` for the
uncaught `ValueError` that `datetime.fromisoformat` raises on a malformed
stored `start_time`. -/
inductive ApiError where
  /-- Status 400, "Activity type already exists" / "Another activity type ...". -/
  | duplicate
  /-- Status 404, "... not found". -/
  | notFound
  /-- Status 400, "An activity is already in progress...". -/
  | conflict
  /-- Status 400, "Activity already ended". -/
  | alreadyEnded
  /-- uncaught `ValueError` from `datetime.fromisoformat`. -/
  | parseError
deriving DecidableEq, Repr

/-- Python truthiness of the `Optional[str]` field `end_time`:
`None` and `""` are falsy (`if a.get("end_time"):`). -/
def truthyEnd (a : ActivityRecord) : Bool :=
  match a.end_time with
  | none => false
  | some s => !(s == "")

/-- Python truthiness of the `Optional[int]` field `duration_seconds`:
`None` and `0` are falsy (`not a.get("duration_seconds")`). -/
def truthyDur (a : ActivityRecord) : Bool :=
  match a.duration_seconds with
  | none => false
  | some n => !(n == 0)

/-- The guard `a.get("end_time") in (None, "")` of `start_activity`. -/
def isOpenGuard (a : ActivityRecord) : Bool :=
  a.end_time == none || a.end_time == some ""

/-- Normalisation `.strip().lower()` used by the duplicate checks of the
type registry. -/
def norm (s : String) : String :=
  pyLower (pyStrip s)

/-- One iteration of the duplicate scan in `create_activity_type` /
`update_activity_type`: case-insensitive, whitespace-trimmed match of both
fields against the payload (absent fields read as `""`). -/
def typeMatches (payload : ActivityTypeIn) (it : ActivityType) : Bool :=
  norm (it.activity_category.getD "") == norm payload.activity_category
    && norm (it.activity_name.getD "") == norm payload.activity_name

/-- Handler `create_activity_type` (`src/main.py:101-119`).  `newId` stands for the
`str(uuid4())` draw.  On success returns the rewritten collection and the
new record; a raised `HTTPException` leaves the collection unwritten. -/
def create_activity_type (newId : String) (payload : ActivityTypeIn)
    (items : List ActivityType) :
    Except ApiError (List ActivityType × ActivityType) :=
  if items.any (typeMatches payload) then
    .error .duplicate
  else
    let newItem : ActivityType :=
      ⟨newId, some (pyStrip payload.activity_category),
        some (pyStrip payload.activity_name)⟩
    .ok (items ++ [newItem], newItem)

/-- The `for idx, it in enumerate(items)` loop of `update_activity_type`:
walks the collection to the first record whose id matches, keeping the
full collection `items` for the duplicate scan. -/
def updateTypeLoop (typeId : String) (payload : ActivityTypeIn)
    (items : List ActivityType) :
    List ActivityType → Except ApiError (List ActivityType × ActivityType)
  | [] => .error .notFound
  | it :: rest =>
    if it.id = typeId then
      if items.any (fun other =>
          other.id ≠ typeId && typeMatches payload other) then
        .error .duplicate
      else
        let updated : ActivityType :=
          ⟨typeId, some (pyStrip payload.activity_category),
            some (pyStrip payload.activity_name)⟩
        .ok (updated :: rest, updated)
    else
      match updateTypeLoop typeId payload items rest with
      | .error e => .error e
      | .ok (rest2, r) => .ok (it :: rest2, r)

/-- Handler `update_activity_type` (`src/main.py:122-143`). -/
def update_activity_type (typeId : String) (payload : ActivityTypeIn)
    (items : List ActivityType) :
    Except ApiError (List ActivityType × ActivityType) :=
  updateTypeLoop typeId payload items items

/-- Handler `start_activity` (`src/main.py:165-184`).  `newId` stands for the
`str(uuid4())` draw and `now` for the truncated `datetime.utcnow()`. -/
def start_activity (newId : String) (now : DateTime)
    (payload : ActivityStartIn) (activities : List ActivityRecord) :
    Except ApiError (List ActivityRecord × ActivityRecord) :=
  if activities.any isOpenGuard then
    .error .conflict
  else
    let record : ActivityRecord :=
      ⟨newId, some (pyStrip payload.activity_category),
        pyStrip payload.activity_name, isoNow now, none, none⟩
    .ok (activities ++ [record], record)

/-- The record rewritten by `end_activity`'s matching branch:
`{**a, "end_time": end_time.isoformat() + "Z", "duration_seconds": int((end_time - start).total_seconds())}`. -/
def endedRecord (a : ActivityRecord) (now start : DateTime) :
    ActivityRecord :=
  { a with end_time := some (isoNow now),
           duration_seconds := some (epochSecs now - epochSecs start) }

/-- The `for idx, a in enumerate(activities)` loop of `end_activity`:
first record whose id matches is examined; the rewritten collection keeps
every other record in place. -/
def endActivityLoop (now : DateTime) (pid : String) :
    List ActivityRecord →
    Except ApiError (List ActivityRecord × ActivityRecord)
  | [] => .error .notFound
  | a :: rest =>
    if a.id = pid then
      if truthyEnd a then
        .error .alreadyEnded
      else
        match parseIso (replaceZ a.start_time) with
        | none => .error .parseError
        | some start => .ok (endedRecord a now start :: rest,
            endedRecord a now start)
    else
      match endActivityLoop now pid rest with
      | .error e => .error e
      | .ok (rest2, r) => .ok (a :: rest2, r)

/-- Handler `end_activity` (`src/main.py:187-206`); `now` stands for the truncated
`datetime.utcnow()` read inside the matching branch. -/
def end_activity (now : DateTime) (pid : String)
    (activities : List ActivityRecord) :
    Except ApiError (List ActivityRecord × ActivityRecord) :=
  endActivityLoop now pid activities

/-- Handler `get_active_activity` (`src/main.py:209-216`): first record with falsy
`end_time`, if any. -/
def get_active_activity (activities : List ActivityRecord) :
    Option ActivityRecord :=
  activities.find? (fun a => !truthyEnd a)

/-- Python `dict` modelled as an insertion-ordered association list. -/
def lookupA {α : Type} (m : List (String × α)) (k : String) : Option α :=
  (m.find? (fun p => p.1 == k)).map (fun p => p.2)

/-- Assignment `m[k] = v` on a Python dict: overwrites the entry in place
if the key exists (keys are unique in a dict, so the first occurrence),
otherwise appends it. -/
def dictSet {α : Type} : List (String × α) → String → α → List (String × α)
  | [], k, v => [(k, v)]
  | p :: rest, k, v =>
    if p.1 == k then (p.1, v) :: rest else p :: dictSet rest k v

/-- The nested aggregation dict of `get_summary`:
date → category → total seconds. -/
abbrev Agg := List (String × List (String × Int))

/-- Call `agg.setdefault(date_key, \x7b\x7d)` of the summary loop. -/
def aggSetdefault (agg : Agg) (k : String) : Agg :=
  if (lookupA agg k).isSome then agg else agg ++ [(k, [])]

/-- Whether `get_summary`'s loop keeps a record: both
`a.get("end_time")` and `a.get("duration_seconds")` truthy
(`if not ... or not ...: continue`). -/
def includedInSummary (a : ActivityRecord) : Bool :=
  truthyEnd a && truthyDur a

/-- Date key `a["start_time"][0:10]` of the summary loop. -/
def dateKey (a : ActivityRecord) : String :=
  pySlice a.start_time 10

/-- Category key `a.get("activity_category", "other")`: the fallback fires only when
the field is absent. -/
def catKey (a : ActivityRecord) : String :=
  a.activity_category.getD "other"

/-- Assignment `agg[date_key][cat] = agg[date_key].get(cat, 0) + int(dur)`: item
assignment on the inner dict held at `dk` (the first — and, in a dict,
only — entry with that key). -/
def aggBump : Agg → String → String → Int → Agg
  | [], _, _, _ => []
  | p :: rest, dk, cat, d =>
    if p.1 == dk then
      (p.1, dictSet p.2 cat ((lookupA p.2 cat).getD 0 + d)) :: rest
    else
      p :: aggBump rest dk cat d

/-- One iteration of `get_summary`'s loop over `activities`. -/
def summaryStep (agg : Agg) (a : ActivityRecord) : Agg :=
  if !truthyEnd a || !truthyDur a then agg
  else
    aggBump (aggSetdefault agg (dateKey a)) (dateKey a) (catKey a)
      (a.duration_seconds.getD 0)

/-- Handler `get_summary` (`src/main.py:220-250`): returns
`{dates: sorted(agg.keys()), data: agg}`. -/
def get_summary (activities : List ActivityRecord) : List String × Agg :=
  let agg := activities.foldl summaryStep []
  (List.insertionSort (· ≤ ·) (agg.map (fun p => p.1)), agg)

/-- On-disk state of one collection's document and its `.bak` sibling;
`none` means the file does not exist. -/
structure FileState where
  main : Option String
  bak : Option String
deriving DecidableEq, Repr

/-- Store primitive `_read_json` (`src/main.py:49-62`), generic over the deserializer
(`json.load`, modelled as `parse`, with `none` standing for
`json.JSONDecodeError`).  `renameOk` tells whether the best-effort
`path.replace(backup)` succeeds; its failure is swallowed.  Returns the
loaded value and the resulting file state; never fails. -/
def readJson {α : Type} (parse : String → Option α) (dflt : α)
    (renameOk : Bool) (fs : FileState) : α × FileState :=
  match fs.main with
  | none => (dflt, fs)
  | some content =>
    match parse content with
    | some v => (v, fs)
    | none =>
      (dflt, if renameOk then ⟨none, some content⟩ else fs)

/-- A call into the lifecycle engine: either `start_activity` (with its
uuid draw and clock reading) or `end_activity`. -/
inductive LifeOp where
  | opStart (newId : String) (now : DateTime) (payload : ActivityStartIn)
  | opEnd (now : DateTime) (pid : String)
deriving Repr

/-- Effect of one handler call on the stored `activities.json` collection:
on `HTTPException` (or the uncaught parse error) nothing is written and
the collection is unchanged. -/
def applyLifeOp (activities : List ActivityRecord) :
    LifeOp → List ActivityRecord
  | .opStart newId now payload =>
    match start_activity newId now payload activities with
    | .ok (s, _) => s
    | .error _ => activities
  | .opEnd now pid =>
    match end_activity now pid activities with
    | .ok (s, _) => s
    | .error _ => activities

/-- Number of records whose `end_time` field is absent. -/
def countOpen (activities : List ActivityRecord) : Nat :=
  (activities.filter (fun a => a.end_time == none)).length

/-- The collection-level invariant of §3: at most one record with
`end_time` absent. -/
def atMostOneOpen (activities : List ActivityRecord) : Prop :=
  countOpen activities ≤ 1

instance (activities : List ActivityRecord) :
    Decidable (atMostOneOpen activities) := by
  unfold atMostOneOpen; infer_instance

deriving instance DecidableEq for Except

/-! ## Observation helpers used only by theorem statements -/

/-- Duration read by the summary loop (`int(a["duration_seconds"])`; the
field is present whenever the loop reads it). -/
def recDur (a : ActivityRecord) : Int :=
  a.duration_seconds.getD 0

/-- Whether a record lands in the `(dk, cat)` cell of the summary table:
kept by the loop's filter, with matching date key and category key. -/
def matchesKey (a : ActivityRecord) (dk cat : String) : Bool :=
  includedInSummary a && (dateKey a == dk) && (catKey a == cat)

/-- Sum of the values of an inner (category → seconds) dict. -/
def totalInner (m : List (String × Int)) : Int :=
  (m.map Prod.snd).sum

/-- Sum of every cell of the aggregation table. -/
def totalAgg (agg : Agg) : Int :=
  (agg.map (fun p => totalInner p.2)).sum

/-- Reading the `(dk, cat)` cell of the aggregation table. -/
def lookup2 (agg : Agg) (dk cat : String) : Option Int :=
  match lookupA agg dk with
  | none => none
  | some inner => lookupA inner cat

/-! ## Concrete fixtures used by counterexamples and witnesses -/

/-- Record stored as `⟨"Sports", "Run"⟩` by the first `Create` of the
spec's duplicate scenario. -/
def typeSportsRun : ActivityType :=
  ⟨"t1", some "Sports", some "Run"⟩

/-- Clock fixture: 2025-11-03 10:00:00 UTC. -/
def dtMorning : DateTime :=
  ⟨2025, 11, 3, 10, 0, 0⟩

/-- Clock fixture: 2025-11-03 11:30:00 UTC. -/
def dtLater : DateTime :=
  ⟨2025, 11, 3, 11, 30, 0⟩

/-- Stored record whose `end_time` is the empty string: present but
falsy. -/
def recEmptyEnd : ActivityRecord :=
  ⟨"a1", some "sports", "run", "2025-11-03T10:00:00Z", some "", none⟩

/-- Closed record whose `duration_seconds` is `0` (start and end within
the same second). -/
def recZeroDur : ActivityRecord :=
  ⟨"a2", some "sports", "run", "2025-11-03T10:00:00Z",
    some "2025-11-03T10:00:00Z", some 0⟩

/-- Closed record whose `activity_category` is present but empty. -/
def recEmptyCat : ActivityRecord :=
  ⟨"a3", some "", "run", "2025-11-03T10:00:00Z",
    some "2025-11-03T10:30:00Z", some 1800⟩

/-- Record with `end_time` present-but-empty and a start time later than
the `dtMorning` clock fixture. -/
def recFutureStart : ActivityRecord :=
  ⟨"a4", some "sports", "run", "2025-11-04T10:00:00Z", some "", none⟩

/-- First closed `"sports"` record of the spec's summary example. -/
def recSportsA : ActivityRecord :=
  ⟨"s1", some "sports", "run", "2025-11-03T10:00:00Z",
    some "2025-11-03T11:30:00Z", some 5400⟩

/-- Second closed `"sports"` record of the spec's summary example. -/
def recSportsB : ActivityRecord :=
  ⟨"s2", some "sports", "walk", "2025-11-03T12:00:00Z",
    some "2025-11-03T12:30:00Z", some 1800⟩

/-! ## C6: Create on the type registry -/

/-- C6: `Create(category, name)` fails with `DuplicateError` and performs
no mutation exactly when an existing record matches both trimmed fields
case-insensitively; otherwise it appends one record with the fresh id and
trimmed fields and returns it.  In particular `Create("Sports", "Run")`
followed by `Create(" sports ", "RUN")` fails with `DuplicateError`. -/
theorem C6_create_duplicate_check (newId : String)
    (payload : ActivityTypeIn) (items : List ActivityType) :
    (items.any (typeMatches payload) = true →
      create_activity_type newId payload items = .error .duplicate) ∧
    (items.any (typeMatches payload) = false →
      create_activity_type newId payload items =
        .ok (items ++
          [⟨newId, some (pyStrip payload.activity_category),
            some (pyStrip payload.activity_name)⟩],
          ⟨newId, some (pyStrip payload.activity_category),
            some (pyStrip payload.activity_name)⟩)) ∧
    (create_activity_type "t1" ⟨"Sports", "Run"⟩ [] =
        .ok ([typeSportsRun], typeSportsRun) ∧
      create_activity_type "t2" ⟨" sports ", "RUN"⟩ [typeSportsRun] =
        .error .duplicate) := by
  refine ⟨fun h => ?_, fun h => ?_, by decide⟩
  · simp [create_activity_type, h]
  · simp [create_activity_type, h]

/-- Witness for C6: the success branch at a concrete fresh collection. -/
theorem C6_create_duplicate_check_witness :
    create_activity_type "t9" ⟨"Study", "Read"⟩ [] =
      .ok ([⟨"t9", some "Study", some "Read"⟩],
        ⟨"t9", some "Study", some "Read"⟩) := by
  have h := (C6_create_duplicate_check "t9" ⟨"Study", "Read"⟩ []).2.1
    (by decide)
  exact h.trans (by decide)

/-! ## C5: Start and the single-open-activity guard -/

/-- C5 (amended): `Start` fails with `ConflictError` and leaves the stored
collection unchanged exactly when some record has `end_time` absent *or
empty* (the source guard `a.get("end_time") in (None, "")`); when no such
record exists it appends one new open record with trimmed fields and the
second-truncated clock reading and returns it. -/
theorem C5_start_conflict_guard (newId : String) (now : DateTime)
    (payload : ActivityStartIn) (activities : List ActivityRecord) :
    (activities.any isOpenGuard = true →
      start_activity newId now payload activities = .error .conflict ∧
      applyLifeOp activities (.opStart newId now payload) = activities) ∧
    (activities.any isOpenGuard = false →
      start_activity newId now payload activities =
        .ok (activities ++
          [⟨newId, some (pyStrip payload.activity_category),
            pyStrip payload.activity_name, isoNow now, none, none⟩],
          ⟨newId, some (pyStrip payload.activity_category),
            pyStrip payload.activity_name, isoNow now, none, none⟩)) := by
  constructor
  · intro h
    constructor
    · simp [start_activity, h]
    · simp [applyLifeOp, start_activity, h]
  · intro h
    simp [start_activity, h]

/-- Witness for C5: on a fresh collection, `Start` appends the new open
record. -/
theorem C5_start_conflict_guard_witness :
    start_activity "b1" dtMorning ⟨" sports ", "run"⟩ [] =
      .ok ([⟨"b1", some "sports", "run", "2025-11-03T10:00:00Z",
        none, none⟩],
        ⟨"b1", some "sports", "run", "2025-11-03T10:00:00Z",
          none, none⟩) := by
  have h := (C5_start_conflict_guard "b1" dtMorning ⟨" sports ", "run"⟩
    []).2 (by decide)
  exact h.trans (by decide)

/-- Counterexample to C5 as stated: a collection whose only record has
`end_time` present (the empty string), hence *no* record with `end_time`
absent, on which `Start` nevertheless fails with `ConflictError`. -/
theorem C5_counterexample :
    (∀ a ∈ [recEmptyEnd], a.end_time ≠ none) ∧
    start_activity "b1" dtMorning ⟨"study", "read"⟩ [recEmptyEnd] =
      .error .conflict := by
  decide

/-! ## C9: corruption handling of the document store -/

/-- C9: `_read_json` returns the default (the empty collection) when no
document exists; on a document the deserializer rejects it returns the
empty collection, moving the corrupt content to the `.bak` sibling when
the best-effort rename succeeds and leaving the filesystem untouched when
it fails (the failure is swallowed) — corruption never makes the load
fail. -/
theorem C9_read_json_recovery (α : Type) (parse : String → Option (List α))
    (renameOk : Bool) (fs : FileState) :
    (fs.main = none → readJson parse ([] : List α) renameOk fs = ([], fs)) ∧
    (∀ content, fs.main = some content → parse content = none →
      (readJson parse ([] : List α) renameOk fs).1 = [] ∧
      (renameOk = true →
        (readJson parse ([] : List α) renameOk fs).2 =
          ⟨none, some content⟩) ∧
      (renameOk = false →
        (readJson parse ([] : List α) renameOk fs).2 = fs)) := by
  constructor
  · intro h
    simp [readJson, h]
  · intro content hmain hparse
    refine ⟨?_, ?_, ?_⟩ <;> simp [readJson, hmain, hparse]
    · intro h
      simp [h]
    · intro h
      simp [h]

/-- Witness for C9: a concrete corrupt document is backed up and the load
returns the empty collection. -/
theorem C9_read_json_recovery_witness :
    readJson (fun s => if s = "[]" then some ([] : List Nat) else none)
        ([] : List Nat) true ⟨some "garbage", none⟩ =
      ([], ⟨none, some "garbage"⟩) := by
  have h := (C9_read_json_recovery Nat
    (fun s => if s = "[]" then some ([] : List Nat) else none)
    true ⟨some "garbage", none⟩).2 "garbage" rfl (by decide)
  exact Prod.ext h.1 (h.2.1 rfl)

/-! ## Lifecycle loop lemmas -/

/-- With no matching id, the `end_activity` loop falls through to the 404
branch. -/
theorem endActivityLoop_notFound (now : DateTime) (pid : String)
    (l : List ActivityRecord) (h : ∀ a ∈ l, a.id ≠ pid) :
    endActivityLoop now pid l = .error .notFound := by
  induction l with
  | nil => rfl
  | cons a rest ih =>
    have ha : ¬(a.id = pid) := h a (by simp)
    rw [endActivityLoop, if_neg ha,
      ih (fun b hb => h b (List.mem_cons_of_mem a hb))]

/-- Reaching the first matching record with truthy `end_time` raises
"Activity already ended". -/
theorem endActivityLoop_alreadyEnded (now : DateTime) (pid : String)
    (pre post : List ActivityRecord) (a : ActivityRecord)
    (hpre : ∀ b ∈ pre, b.id ≠ pid) (ha : a.id = pid)
    (hend : truthyEnd a = true) :
    endActivityLoop now pid (pre ++ a :: post) = .error .alreadyEnded := by
  induction pre with
  | nil => simp [endActivityLoop, ha, hend]
  | cons b pre ih =>
    have hb : ¬(b.id = pid) := hpre b (by simp)
    rw [List.cons_append, endActivityLoop, if_neg hb,
      ih (fun c hc => hpre c (List.mem_cons_of_mem b hc))]

/-- Reaching the first matching record with falsy `end_time` and parseable
`start_time` overwrites it in place and returns it. -/
theorem endActivityLoop_ok (now : DateTime) (pid : String)
    (pre post : List ActivityRecord) (a : ActivityRecord) (st : DateTime)
    (hpre : ∀ b ∈ pre, b.id ≠ pid) (ha : a.id = pid)
    (hend : truthyEnd a = false)
    (hparse : parseIso (replaceZ a.start_time) = some st) :
    endActivityLoop now pid (pre ++ a :: post) =
      .ok (pre ++ endedRecord a now st :: post, endedRecord a now st) := by
  induction pre with
  | nil => simp [endActivityLoop, ha, hend, hparse]
  | cons b pre ih =>
    have hb : ¬(b.id = pid) := hpre b (by simp)
    rw [List.cons_append, endActivityLoop, if_neg hb,
      ih (fun c hc => hpre c (List.mem_cons_of_mem b hc))]
    rfl

/-! ## C4: End semantics -/

/-- C4 (amended): `End(id)` fails with `NotFoundError` when no record has
the id; on the first record with that id it fails with
`AlreadyEndedError` exactly when the stored `end_time` is truthy (present
*and* non-empty — a present-but-empty `end_time` is treated as open);
otherwise it overwrites that record in place with the second-truncated
clock reading and `duration_seconds` equal to the whole-second delta
between that reading and the parsed stored start, a delta that is
non-negative whenever the clock reading is not earlier than the stored
start. -/
theorem C4_end_semantics (now : DateTime) (pid : String)
    (activities : List ActivityRecord) :
    ((∀ a ∈ activities, a.id ≠ pid) →
      end_activity now pid activities = .error .notFound) ∧
    (∀ pre a post, activities = pre ++ a :: post →
      (∀ b ∈ pre, b.id ≠ pid) → a.id = pid →
      (truthyEnd a = true →
        end_activity now pid activities = .error .alreadyEnded) ∧
      (∀ st, truthyEnd a = false →
        parseIso (replaceZ a.start_time) = some st →
        end_activity now pid activities =
          .ok (pre ++ endedRecord a now st :: post,
            endedRecord a now st) ∧
        (endedRecord a now st).duration_seconds =
          some (epochSecs now - epochSecs st) ∧
        (epochSecs st ≤ epochSecs now →
          0 ≤ epochSecs now - epochSecs st))) := by
  refine ⟨fun h => endActivityLoop_notFound now pid activities h,
    fun pre a post heq hpre ha => ⟨fun hend => ?_, fun st hend hparse => ?_⟩⟩
  · rw [heq]
    exact endActivityLoop_alreadyEnded now pid pre post a hpre ha hend
  · refine ⟨?_, rfl, fun hle => by omega⟩
    rw [heq]
    exact endActivityLoop_ok now pid pre post a st hpre ha hend hparse

/-- Witness for C4: ending the single open record of a one-record
collection - 90 minutes after its start - stores duration 5400. -/
theorem C4_end_semantics_witness :
    end_activity dtLater "a1"
        [⟨"a1", some "sports", "run", "2025-11-03T10:00:00Z", none, none⟩] =
      .ok ([⟨"a1", some "sports", "run", "2025-11-03T10:00:00Z",
        some "2025-11-03T11:30:00Z", some 5400⟩],
        ⟨"a1", some "sports", "run", "2025-11-03T10:00:00Z",
          some "2025-11-03T11:30:00Z", some 5400⟩) := by
  have h := ((C4_end_semantics dtLater "a1"
    [⟨"a1", some "sports", "run", "2025-11-03T10:00:00Z", none, none⟩]).2
    [] ⟨"a1", some "sports", "run", "2025-11-03T10:00:00Z", none, none⟩ []
    rfl (by simp) rfl).2 dtMorning (by decide) (by decide)
  exact h.1.trans (by decide)

/-- Counterexample to C4 as stated: a record whose `end_time` is already
present (the empty string) and whose stored start lies one day after the
clock reading; `End` does not fail with `AlreadyEndedError` - it succeeds
and stores the negative duration -86400. -/
theorem C4_counterexample :
    recFutureStart.end_time.isSome = true ∧
    end_activity dtMorning "a4" [recFutureStart] =
      .ok ([⟨"a4", some "sports", "run", "2025-11-04T10:00:00Z",
        some "2025-11-03T10:00:00Z", some (-86400)⟩],
        ⟨"a4", some "sports", "run", "2025-11-04T10:00:00Z",
          some "2025-11-03T10:00:00Z", some (-86400)⟩) ∧
    (-86400 : Int) < 0 := by
  decide

/-! ## C10: present-but-empty end_time is treated as open -/

/-- C10: a stored record whose `end_time` is the empty string is treated
as open by every lifecycle operation: `Start` fails with `ConflictError`
while it is present; `End` on its id does not fail with
`AlreadyEndedError` but closes it in place (its rewritten `end_time` is
truthy); and `GetActive` returns it when the records before it are
closed. -/
theorem C10_empty_end_treated_open (newId : String) (now : DateTime)
    (payload : ActivityStartIn) (pre post : List ActivityRecord)
    (r : ActivityRecord) (st : DateTime)
    (hr : r.end_time = some "")
    (hpre : ∀ b ∈ pre, truthyEnd b = true ∧ b.id ≠ r.id)
    (hparse : parseIso (replaceZ r.start_time) = some st) :
    start_activity newId now payload (pre ++ r :: post) =
      .error .conflict ∧
    end_activity now r.id (pre ++ r :: post) =
      .ok (pre ++ endedRecord r now st :: post, endedRecord r now st) ∧
    truthyEnd (endedRecord r now st) = true ∧
    get_active_activity (pre ++ r :: post) = some r := by
  have hopen : isOpenGuard r = true := by
    simp [isOpenGuard, hr]
  have hfalsy : truthyEnd r = false := by
    simp [truthyEnd, hr]
  refine ⟨?_, ?_, ?_, ?_⟩
  · have hany : (pre ++ r :: post).any isOpenGuard = true := by
      simp [List.any_append, hopen]
    simp [start_activity, hany]
  · exact endActivityLoop_ok now r.id pre post r st
      (fun b hb => (hpre b hb).2) rfl hfalsy hparse
  · have : isoNow now ≠ "" := by
      intro h
      have := congrArg String.data h
      simp [isoNow, String.data_append] at this
    simp [truthyEnd, endedRecord, this]
  · unfold get_active_activity
    rw [List.find?_append]
    have hnone : pre.find? (fun a => !truthyEnd a) = none := by
      rw [List.find?_eq_none]
      intro b hb
      simp [(hpre b hb).1]
    rw [hnone]
    simp [hfalsy]

/-- Witness for C10: the empty-`end_time` fixture behind one closed
record is seen as open by all three operations. -/
theorem C10_empty_end_treated_open_witness :
    start_activity "b9" dtLater ⟨"study", "read"⟩
        [recSportsA, recEmptyEnd] = .error .conflict ∧
    end_activity dtLater "a1" [recSportsA, recEmptyEnd] =
      .ok ([recSportsA,
        ⟨"a1", some "sports", "run", "2025-11-03T10:00:00Z",
          some "2025-11-03T11:30:00Z", some 5400⟩],
        ⟨"a1", some "sports", "run", "2025-11-03T10:00:00Z",
          some "2025-11-03T11:30:00Z", some 5400⟩) ∧
    get_active_activity [recSportsA, recEmptyEnd] = some recEmptyEnd := by
  have h := C10_empty_end_treated_open "b9" dtLater ⟨"study", "read"⟩
    [recSportsA] [] recEmptyEnd dtMorning rfl (by decide) (by decide)
  exact ⟨h.1, h.2.1.trans (by decide), h.2.2.2⟩

/-! ## C3: the single-open-record invariant -/

/-- Unfolding `countOpen` over a cons cell. -/
theorem countOpen_cons (a : ActivityRecord) (l : List ActivityRecord) :
    countOpen (a :: l) =
      (if a.end_time = none then 1 else 0) + countOpen l := by
  by_cases h : a.end_time = none <;>
    simp [countOpen, List.filter_cons, h, Nat.add_comm]

/-- Unfolding `countOpen` over an append. -/
theorem countOpen_append (l1 l2 : List ActivityRecord) :
    countOpen (l1 ++ l2) = countOpen l1 + countOpen l2 := by
  simp [countOpen, List.filter_append]

/-- A collection passing the `start_activity` guard has no record with
absent `end_time` at all. -/
theorem countOpen_eq_zero_of_guard (l : List ActivityRecord)
    (h : l.any isOpenGuard = false) : countOpen l = 0 := by
  have hall : ∀ a ∈ l, ¬(a.end_time = none) := by
    intro a ha hnone
    have : l.any isOpenGuard = true :=
      List.any_eq_true.mpr ⟨a, ha, by simp [isOpenGuard, hnone]⟩
    simp [this] at h
  simp only [countOpen]
  rw [List.filter_eq_nil_iff.mpr (fun a ha => by simp [hall a ha])]
  rfl

/-- A successful `end_activity` rewrite never increases the number of
records with absent `end_time`. -/
theorem endActivityLoop_countOpen (now : DateTime) (pid : String) :
    ∀ (l l' : List ActivityRecord) (r : ActivityRecord),
      endActivityLoop now pid l = .ok (l', r) →
      countOpen l' ≤ countOpen l := by
  intro l
  induction l with
  | nil => intro l' r h; exact absurd h (by simp [endActivityLoop])
  | cons a rest ih =>
    intro l' r h
    rw [endActivityLoop] at h
    by_cases ha : a.id = pid
    · rw [if_pos ha] at h
      by_cases he : truthyEnd a = true
      · simp [he] at h
      · rw [if_neg he] at h
        cases hp : parseIso (replaceZ a.start_time) with
        | none => rw [hp] at h; cases h
        | some st =>
          rw [hp] at h
          cases h
          rw [countOpen_cons, countOpen_cons]
          simp [endedRecord]
    · rw [if_neg ha] at h
      cases hrec : endActivityLoop now pid rest with
      | error e => rw [hrec] at h; cases h
      | ok p =>
        obtain ⟨rest2, r2⟩ := p
        rw [hrec] at h
        cases h
        rw [countOpen_cons, countOpen_cons]
        exact Nat.add_le_add_left (ih _ _ hrec) _

/-- One handler call preserves the invariant. -/
theorem applyLifeOp_preserves (s : List ActivityRecord) (op : LifeOp)
    (h : atMostOneOpen s) : atMostOneOpen (applyLifeOp s op) := by
  cases op with
  | opStart newId now payload =>
    cases hg : s.any isOpenGuard with
    | true =>
      simp only [applyLifeOp, start_activity, hg, if_pos]
      exact h
    | false =>
      simp only [applyLifeOp, start_activity, hg]
      unfold atMostOneOpen
      rw [if_neg (by simp), countOpen_append,
        countOpen_eq_zero_of_guard s hg]
      simp [countOpen]
  | opEnd now pid =>
    simp only [applyLifeOp]
    cases hrec : end_activity now pid s with
    | error e => exact h
    | ok p =>
      obtain ⟨s2, r2⟩ := p
      exact le_trans (endActivityLoop_countOpen now pid s s2 r2 hrec) h

/-- C3: every collection reachable from an invariant-satisfying one by a
sequence of `Start`/`End` calls has at most one record with absent
`end_time`. -/
theorem C3_at_most_one_open (ops : List LifeOp)
    (s0 : List ActivityRecord) (h : atMostOneOpen s0) :
    atMostOneOpen (ops.foldl applyLifeOp s0) := by
  induction ops generalizing s0 with
  | nil => exact h
  | cons op ops ih =>
    exact ih (applyLifeOp s0 op) (applyLifeOp_preserves s0 op h)

/-- Witness for C3: a concrete Start/Start/End/Start run from the empty
collection keeps the invariant. -/
theorem C3_at_most_one_open_witness :
    atMostOneOpen (List.foldl applyLifeOp []
      [.opStart "a1" dtMorning ⟨"sports", "run"⟩,
       .opStart "a2" dtMorning ⟨"study", "read"⟩,
       .opEnd dtLater "a1",
       .opStart "a3" dtLater ⟨"study", "read"⟩]) :=
  C3_at_most_one_open
    [.opStart "a1" dtMorning ⟨"sports", "run"⟩,
     .opStart "a2" dtMorning ⟨"study", "read"⟩,
     .opEnd dtLater "a1",
     .opStart "a3" dtLater ⟨"study", "read"⟩] [] (by decide)

/-! ## C7: Update semantics and frame -/

/-- With no matching id, the `update_activity_type` loop falls through to
the 404 branch. -/
theorem updateTypeLoop_notFound (typeId : String)
    (payload : ActivityTypeIn) (items : List ActivityType)
    (l : List ActivityType) (h : ∀ it ∈ l, it.id ≠ typeId) :
    updateTypeLoop typeId payload items l = .error .notFound := by
  induction l with
  | nil => rfl
  | cons it rest ih =>
    have hit : ¬(it.id = typeId) := h it (by simp)
    rw [updateTypeLoop, if_neg hit,
      ih (fun b hb => h b (List.mem_cons_of_mem it hb))]

/-- Reaching the first matching record, the loop raises 400 exactly when
some *other* record (id different from the target) matches the trimmed
payload case-insensitively, and otherwise overwrites the record in
place. -/
theorem updateTypeLoop_found (typeId : String) (payload : ActivityTypeIn)
    (items : List ActivityType) (pre post : List ActivityType)
    (it : ActivityType) (hpre : ∀ b ∈ pre, b.id ≠ typeId)
    (hit : it.id = typeId) :
    updateTypeLoop typeId payload items (pre ++ it :: post) =
      if items.any (fun other =>
          other.id ≠ typeId && typeMatches payload other) then
        .error .duplicate
      else
        .ok (pre ++
          (⟨typeId, some (pyStrip payload.activity_category),
            some (pyStrip payload.activity_name)⟩ : ActivityType) :: post,
          ⟨typeId, some (pyStrip payload.activity_category),
            some (pyStrip payload.activity_name)⟩) := by
  induction pre with
  | nil =>
    rw [List.nil_append, updateTypeLoop, if_pos hit]
    by_cases hd : items.any (fun other =>
        other.id ≠ typeId && typeMatches payload other) = true
    · rw [if_pos hd, if_pos hd]
    · rw [if_neg hd, if_neg hd]
      rfl
  | cons b pre ih =>
    have hb : ¬(b.id = typeId) := hpre b (by simp)
    rw [List.cons_append, updateTypeLoop, if_neg hb,
      ih (fun c hc => hpre c (List.mem_cons_of_mem b hc))]
    by_cases hd : items.any (fun other =>
        other.id ≠ typeId && typeMatches payload other) = true
    · rw [if_pos hd, if_pos hd]
    · rw [if_neg hd, if_neg hd]
      rfl

/-- C7: `Update(id, category, name)` fails with `NotFoundError` when no
record has the id; at the first record with the id it fails with
`DuplicateError` (and no mutation) exactly when a record *other than the
one being updated* matches the trimmed payload case-insensitively — the
scan excludes the target id, so re-storing a record's own fields passes —
and on success only that record is overwritten (same id, trimmed new
fields) while every other record keeps its content and position. -/
theorem C7_update_semantics (typeId : String) (payload : ActivityTypeIn)
    (items : List ActivityType) :
    ((∀ it ∈ items, it.id ≠ typeId) →
      update_activity_type typeId payload items = .error .notFound) ∧
    (∀ pre it post, items = pre ++ it :: post →
      (∀ b ∈ pre, b.id ≠ typeId) → it.id = typeId →
      (items.any (fun other =>
          other.id ≠ typeId && typeMatches payload other) = true →
        update_activity_type typeId payload items = .error .duplicate) ∧
      (items.any (fun other =>
          other.id ≠ typeId && typeMatches payload other) = false →
        update_activity_type typeId payload items =
          .ok (pre ++
            (⟨typeId, some (pyStrip payload.activity_category),
              some (pyStrip payload.activity_name)⟩ : ActivityType) :: post,
            ⟨typeId, some (pyStrip payload.activity_category),
              some (pyStrip payload.activity_name)⟩))) := by
  refine ⟨fun h => updateTypeLoop_notFound typeId payload items items h,
    fun pre it post heq hpre hit => ?_⟩
  subst heq
  refine ⟨fun hd => ?_, fun hd => ?_⟩
  · unfold update_activity_type
    rw [updateTypeLoop_found typeId payload _ pre post it hpre hit,
      if_pos hd]
  · unfold update_activity_type
    rw [updateTypeLoop_found typeId payload _ pre post it hpre hit,
      if_neg (by rw [hd]; simp)]

/-- Witness for C7: a no-op rename of the sole record to its own fields
succeeds (the duplicate scan excludes the record being updated). -/
theorem C7_update_semantics_witness :
    update_activity_type "t1" ⟨"Sports", "Run"⟩ [typeSportsRun] =
      .ok ([typeSportsRun], typeSportsRun) := by
  have h := ((C7_update_semantics "t1" ⟨"Sports", "Run"⟩
    [typeSportsRun]).2 [] typeSportsRun [] rfl (by simp) rfl).2 (by decide)
  exact h.trans (by decide)

/-! ## Dict-model lemmas for the aggregation table -/

/-- Unfolding `lookupA` over a cons cell. -/
theorem lookupA_cons {α : Type} (k' : String) (v : α)
    (m : List (String × α)) (k : String) :
    lookupA ((k', v) :: m) k = if k' == k then some v else lookupA m k := by
  by_cases h : k' == k <;> simp [lookupA, List.find?_cons, h]

/-- A hit in the left part of an append wins. -/
theorem lookupA_append_left {α : Type} (m1 m2 : List (String × α))
    (k : String) (v : α) (h : lookupA m1 k = some v) :
    lookupA (m1 ++ m2) k = some v := by
  induction m1 with
  | nil => simp [lookupA] at h
  | cons p rest ih =>
    obtain ⟨k', v'⟩ := p
    rw [List.cons_append, lookupA_cons]
    rw [lookupA_cons] at h
    by_cases hk : k' == k
    · rw [if_pos hk] at h ⊢; exact h
    · rw [if_neg hk] at h ⊢; exact ih h

/-- A miss in the left part of an append defers to the right part. -/
theorem lookupA_append_right {α : Type} (m1 m2 : List (String × α))
    (k : String) (h : lookupA m1 k = none) :
    lookupA (m1 ++ m2) k = lookupA m2 k := by
  induction m1 with
  | nil => rfl
  | cons p rest ih =>
    obtain ⟨k', v'⟩ := p
    rw [List.cons_append, lookupA_cons]
    rw [lookupA_cons] at h
    by_cases hk : k' == k
    · rw [if_pos hk] at h; cases h
    · rw [if_neg hk] at h ⊢; exact ih h

/-- Unfolding `totalInner` over a cons cell. -/
theorem totalInner_cons (p : String × Int)
    (m : List (String × Int)) :
    totalInner (p :: m) = p.2 + totalInner m := by
  simp [totalInner]

/-- Unfolding `totalAgg` over a cons cell. -/
theorem totalAgg_cons (p : String × List (String × Int)) (agg : Agg) :
    totalAgg (p :: agg) = totalInner p.2 + totalAgg agg := by
  simp [totalAgg]

/-- Item assignment `m[k] = m.get(k, 0) + d` raises the dict's value sum
by exactly `d`. -/
theorem dictSet_total (m : List (String × Int)) (k : String) (d : Int) :
    totalInner (dictSet m k ((lookupA m k).getD 0 + d)) =
      totalInner m + d := by
  induction m with
  | nil => simp [dictSet, totalInner, lookupA]
  | cons p rest ih =>
    obtain ⟨k', v⟩ := p
    by_cases h : (k' == k) = true
    · simp only [dictSet, lookupA_cons, h, if_true, Option.getD_some,
        totalInner_cons]
      ring
    · have hb : (k' == k) = false := by simpa using h
      simp only [dictSet, lookupA_cons, hb, Bool.false_eq_true, if_false,
        totalInner_cons, ih]
      ring

/-- Reading back the key just assigned. -/
theorem dictSet_lookup_self {α : Type} (m : List (String × α))
    (k : String) (v : α) : lookupA (dictSet m k v) k = some v := by
  induction m with
  | nil => simp [dictSet, lookupA_cons]
  | cons p rest ih =>
    obtain ⟨k', v'⟩ := p
    rw [dictSet]
    by_cases h : k' == k
    · rw [if_pos h, lookupA_cons, if_pos h]
    · rw [if_neg h, lookupA_cons, if_neg h]
      exact ih

/-- Assignment to one key leaves every other key's value unchanged. -/
theorem dictSet_lookup_other {α : Type} (m : List (String × α))
    (k k2 : String) (v : α) (h : ¬(k = k2)) :
    lookupA (dictSet m k v) k2 = lookupA m k2 := by
  induction m with
  | nil =>
    simp [dictSet, lookupA_cons, lookupA]
    intro hk
    exact absurd hk h
  | cons p rest ih =>
    obtain ⟨k', v'⟩ := p
    rw [dictSet]
    by_cases hk : k' == k
    · rw [if_pos hk, lookupA_cons, lookupA_cons]
      have hk' : k' = k := by simpa using hk
      subst hk'
      have : ¬(k' == k2) := by simpa using h
      rw [if_neg this, if_neg this]
    · rw [if_neg hk, lookupA_cons, lookupA_cons]
      by_cases h2 : k' == k2
      · rw [if_pos h2, if_pos h2]
      · rw [if_neg h2, if_neg h2]
        exact ih

/-- Reading the key just `setdefault`ed. -/
theorem aggSetdefault_lookup_self (agg : Agg) (k : String) :
    lookupA (aggSetdefault agg k) k = some ((lookupA agg k).getD []) := by
  unfold aggSetdefault
  cases h : lookupA agg k with
  | some inner => simp [h]
  | none =>
    simp only [h, Option.isSome_none, Bool.false_eq_true, if_neg,
      not_false_iff, Option.getD_none]
    rw [lookupA_append_right agg _ k h, lookupA_cons]
    simp

/-- `setdefault` leaves every other key unchanged. -/
theorem aggSetdefault_lookup_other (agg : Agg) (k k2 : String)
    (h : ¬(k = k2)) :
    lookupA (aggSetdefault agg k) k2 = lookupA agg k2 := by
  unfold aggSetdefault
  cases hs : (lookupA agg k).isSome with
  | true => simp
  | false =>
    simp only [Bool.false_eq_true, if_neg, not_false_iff]
    cases h2 : lookupA agg k2 with
    | some v => exact lookupA_append_left agg _ k2 v h2
    | none =>
      rw [lookupA_append_right agg _ k2 h2, lookupA_cons]
      have : ¬(k == k2) := by simpa using h
      rw [if_neg this]
      rfl

/-- `setdefault` inserts only an empty inner dict: the total sum is
unchanged. -/
theorem aggSetdefault_total (agg : Agg) (k : String) :
    totalAgg (aggSetdefault agg k) = totalAgg agg := by
  unfold aggSetdefault
  cases hs : (lookupA agg k).isSome with
  | true => simp
  | false =>
    simp only [Bool.false_eq_true, if_neg, not_false_iff]
    simp [totalAgg, totalInner]

/-- Key list of the table after `setdefault`. -/
theorem aggSetdefault_keys (agg : Agg) (k : String) :
    (aggSetdefault agg k).map Prod.fst =
      if (lookupA agg k).isSome then agg.map Prod.fst
      else agg.map Prod.fst ++ [k] := by
  unfold aggSetdefault
  cases hs : (lookupA agg k).isSome with
  | true => simp
  | false => simp

/-- The in-place cell bump raises the table's total by exactly the bumped
amount, provided the date entry exists. -/
theorem aggBump_total (dk cat : String) (d : Int) :
    ∀ agg : Agg, (lookupA agg dk).isSome = true →
      totalAgg (aggBump agg dk cat d) = totalAgg agg + d := by
  intro agg
  induction agg with
  | nil => intro h; simp [lookupA] at h
  | cons p rest ih =>
    intro h
    obtain ⟨k', inner⟩ := p
    rw [aggBump]
    by_cases hk : k' == dk
    · rw [if_pos (by simpa using hk)]
      simp only [totalAgg_cons]
      rw [dictSet_total]
      ring
    · rw [if_neg (by simpa using hk)]
      simp only [totalAgg_cons]
      rw [lookupA_cons, if_neg hk] at h
      rw [ih h]
      ring

/-- Reading the bumped date entry. -/
theorem aggBump_lookup_self (dk cat : String) (d : Int) :
    ∀ agg : Agg,
      lookupA (aggBump agg dk cat d) dk =
        (lookupA agg dk).map (fun inner =>
          dictSet inner cat ((lookupA inner cat).getD 0 + d)) := by
  intro agg
  induction agg with
  | nil => simp [aggBump, lookupA]
  | cons p rest ih =>
    obtain ⟨k', inner⟩ := p
    rw [aggBump]
    by_cases hk : k' == dk
    · rw [if_pos (by simpa using hk), lookupA_cons, lookupA_cons,
        if_pos hk, if_pos hk]
      rfl
    · rw [if_neg (by simpa using hk), lookupA_cons, lookupA_cons,
        if_neg hk, if_neg hk]
      exact ih

/-- The bump leaves every other date entry unchanged. -/
theorem aggBump_lookup_other (dk cat dk2 : String) (d : Int)
    (h : ¬(dk2 = dk)) :
    ∀ agg : Agg, lookupA (aggBump agg dk cat d) dk2 = lookupA agg dk2 := by
  intro agg
  induction agg with
  | nil => simp [aggBump]
  | cons p rest ih =>
    obtain ⟨k', inner⟩ := p
    rw [aggBump]
    by_cases hk : k' == dk
    · rw [if_pos (by simpa using hk), lookupA_cons, lookupA_cons]
      have hkeq : k' = dk := by simpa using hk
      subst hkeq
      have : ¬(k' == dk2) := by simpa using fun hh => h hh.symm
      rw [if_neg this, if_neg this]
    · rw [if_neg (by simpa using hk), lookupA_cons, lookupA_cons]
      by_cases h2 : k' == dk2
      · rw [if_pos h2, if_pos h2]
      · rw [if_neg h2, if_neg h2]
        exact ih

/-- The bump does not change the key list. -/
theorem aggBump_keys (dk cat : String) (d : Int) :
    ∀ agg : Agg, (aggBump agg dk cat d).map Prod.fst = agg.map Prod.fst := by
  intro agg
  induction agg with
  | nil => rfl
  | cons p rest ih =>
    obtain ⟨k', inner⟩ := p
    rw [aggBump]
    by_cases hk : k' == dk
    · rw [if_pos (by simpa using hk)]
      simp
    · rw [if_neg (by simpa using hk)]
      simp [ih]
/-! ## Summary loop lemmas -/

/-- The loop's `continue`: a record failing the truthiness filter leaves
the table untouched. -/
theorem summaryStep_skip (agg : Agg) (a : ActivityRecord)
    (h : includedInSummary a = false) : summaryStep agg a = agg := by
  unfold summaryStep
  have : (!truthyEnd a || !truthyDur a) = true := by
    cases hte : truthyEnd a <;> cases htd : truthyDur a <;>
      simp_all [includedInSummary]
  rw [if_pos this]

/-- The loop's body on a kept record. -/
theorem summaryStep_incl (agg : Agg) (a : ActivityRecord)
    (h : includedInSummary a = true) :
    summaryStep agg a =
      aggBump (aggSetdefault agg (dateKey a)) (dateKey a) (catKey a)
        (recDur a) := by
  unfold summaryStep
  have : (!truthyEnd a || !truthyDur a) = false := by
    cases hte : truthyEnd a <;> cases htd : truthyDur a <;>
      simp_all [includedInSummary]
  rw [if_neg (by simp [this])]
  rfl

/-- One loop iteration adds the record's duration to the table's total sum
exactly when the record is kept. -/
theorem summaryStep_total (agg : Agg) (a : ActivityRecord) :
    totalAgg (summaryStep agg a) =
      totalAgg agg + (if includedInSummary a then recDur a else 0) := by
  cases h : includedInSummary a with
  | false => rw [summaryStep_skip agg a h]; simp
  | true =>
    rw [summaryStep_incl agg a h]
    rw [aggBump_total _ _ _ _ (by rw [aggSetdefault_lookup_self]; rfl),
      aggSetdefault_total]
    simp

/-- Folding the loop: the table's total is the sum of the durations of the
kept records. -/
theorem summary_fold_total (activities : List ActivityRecord) :
    ∀ agg : Agg,
      totalAgg (List.foldl summaryStep agg activities) =
        totalAgg agg +
          ((activities.filter includedInSummary).map recDur).sum := by
  induction activities with
  | nil => intro agg; simp
  | cons a rest ih =>
    intro agg
    rw [List.foldl_cons, ih (summaryStep agg a), summaryStep_total]
    cases h : includedInSummary a with
    | false => simp [List.filter_cons, h]
    | true =>
      simp only [List.filter_cons, h, if_true, List.map_cons,
        List.sum_cons]
      ring

/-- Folding the loop visits exactly the kept records. -/
theorem summary_fold_filter (activities : List ActivityRecord) :
    ∀ agg : Agg,
      List.foldl summaryStep agg activities =
        List.foldl summaryStep agg
          (activities.filter includedInSummary) := by
  induction activities with
  | nil => intro agg; rfl
  | cons a rest ih =>
    intro agg
    cases h : includedInSummary a with
    | false =>
      rw [List.foldl_cons, summaryStep_skip agg a h, List.filter_cons,
        if_neg (by simp [h])]
      exact ih agg
    | true =>
      rw [List.foldl_cons, List.filter_cons, if_pos (by simp [h]),
        List.foldl_cons]
      exact ih (summaryStep agg a)

/-- Effect of one loop iteration on an individual `(dk, cat)` cell. -/
theorem lookup2_summaryStep (agg : Agg) (a : ActivityRecord)
    (dk cat : String) :
    lookup2 (summaryStep agg a) dk cat =
      if matchesKey a dk cat then
        some ((lookup2 agg dk cat).getD 0 + recDur a)
      else lookup2 agg dk cat := by
  cases h : includedInSummary a with
  | false =>
    rw [summaryStep_skip agg a h,
      if_neg (by simp [matchesKey, h])]
  | true =>
    rw [summaryStep_incl agg a h]
    by_cases hdk : dateKey a = dk
    · subst hdk
      unfold lookup2
      rw [aggBump_lookup_self, aggSetdefault_lookup_self]
      by_cases hcat : catKey a = cat
      · subst hcat
        rw [if_pos (by simp [matchesKey, h])]
        simp only [Option.map_some', dictSet_lookup_self]
        cases hk : lookupA agg (dateKey a) with
        | none => simp [lookupA]
        | some inner => simp [lookupA]
      · rw [if_neg (by simp [matchesKey, hcat])]
        simp only [Option.map_some']
        rw [dictSet_lookup_other _ _ _ _ hcat]
        cases hk : lookupA agg (dateKey a) with
        | none => simp [lookupA]
        | some inner => simp [lookupA]
    · unfold lookup2
      rw [aggBump_lookup_other _ _ _ _ (fun hh => hdk hh.symm),
        aggSetdefault_lookup_other _ _ _ hdk,
        if_neg (by simp [matchesKey, hdk])]

/-- Folding the loop: a cell is empty exactly when no record of the input
lands in it. -/
theorem lookup2_fold_none (activities : List ActivityRecord)
    (dk cat : String) :
    ∀ agg : Agg,
      (lookup2 (List.foldl summaryStep agg activities) dk cat = none ↔
        lookup2 agg dk cat = none ∧
          ∀ a ∈ activities, matchesKey a dk cat = false) := by
  induction activities with
  | nil => intro agg; simp
  | cons a rest ih =>
    intro agg
    rw [List.foldl_cons, ih (summaryStep agg a), lookup2_summaryStep]
    cases hm : matchesKey a dk cat with
    | false => simp [hm]
    | true => simp [hm]

/-- Folding the loop: a cell's value grows by the sum of the durations of
the records landing in it. -/
theorem lookup2_fold_getD (activities : List ActivityRecord)
    (dk cat : String) :
    ∀ agg : Agg,
      (lookup2 (List.foldl summaryStep agg activities) dk cat).getD 0 =
        (lookup2 agg dk cat).getD 0 +
          ((activities.filter (fun a => matchesKey a dk cat)).map
            recDur).sum := by
  induction activities with
  | nil => intro agg; simp
  | cons a rest ih =>
    intro agg
    rw [List.foldl_cons, ih (summaryStep agg a), lookup2_summaryStep]
    cases hm : matchesKey a dk cat with
    | false => simp [hm, List.filter_cons]
    | true =>
      simp only [hm, if_true, List.filter_cons, List.map_cons,
        List.sum_cons, Option.getD_some]
      ring

/-- A `lookupA` miss means the key is absent. -/
theorem lookupA_eq_none_iff {α : Type} (m : List (String × α))
    (k : String) :
    lookupA m k = none ↔ ∀ p ∈ m, ¬(p.1 = k) := by
  simp [lookupA, List.find?_eq_none]

/-- One loop iteration preserves distinctness of the date keys. -/
theorem summaryStep_keys_nodup (agg : Agg) (a : ActivityRecord)
    (h : (agg.map Prod.fst).Nodup) :
    ((summaryStep agg a).map Prod.fst).Nodup := by
  cases hinc : includedInSummary a with
  | false => rw [summaryStep_skip agg a hinc]; exact h
  | true =>
    rw [summaryStep_incl agg a hinc, aggBump_keys, aggSetdefault_keys]
    cases hk : (lookupA agg (dateKey a)).isSome with
    | true => simpa using h
    | false =>
      simp only [Bool.false_eq_true, if_neg, not_false_iff]
      have hmem : dateKey a ∉ agg.map Prod.fst := by
        intro hmem
        obtain ⟨p, hp, hp2⟩ := List.mem_map.mp hmem
        have := (lookupA_eq_none_iff agg (dateKey a)).mp
          (Option.not_isSome_iff_eq_none.mp (by simp [hk]))
        exact this p hp hp2
      exact ((List.perm_append_singleton _ _).nodup_iff).mpr
        (List.nodup_cons.mpr ⟨hmem, h⟩)

/-- Folding the loop keeps the date keys distinct. -/
theorem summary_fold_keys_nodup (activities : List ActivityRecord) :
    ∀ agg : Agg, (agg.map Prod.fst).Nodup →
      ((List.foldl summaryStep agg activities).map Prod.fst).Nodup := by
  induction activities with
  | nil => intro agg h; exact h
  | cons a rest ih =>
    intro agg h
    exact ih (summaryStep agg a) (summaryStep_keys_nodup agg a h)
/-! ## C1: which records enter the summary -/

/-- C1 (amended): a record contributes to the summary exactly when both
`end_time` and `duration_seconds` are *truthy* (present and non-empty,
resp. present and non-zero): the aggregation of any input equals the
aggregation of its truthy-filtered records, and the table's total equals
the sum of the filtered records' durations.  In particular a closed record
with `duration_seconds = 0` is skipped, and a record with absent (or
empty) `end_time` is excluded entirely. -/
theorem C1_summary_inclusion (activities : List ActivityRecord) :
    get_summary activities =
      get_summary (activities.filter includedInSummary) ∧
    totalAgg (get_summary activities).2 =
      ((activities.filter includedInSummary).map recDur).sum := by
  constructor
  · unfold get_summary
    rw [← summary_fold_filter]
  · have h := summary_fold_total activities []
    simpa [get_summary, totalAgg] using h

/-- Witness for C1: evaluating the inclusion theorem on the two-record
spec example gives a total of 7200 seconds. -/
theorem C1_summary_inclusion_witness :
    totalAgg (get_summary [recSportsA, recSportsB]).2 = 7200 :=
  (C1_summary_inclusion [recSportsA, recSportsB]).2.trans (by decide)

/-- Counterexample to C1 as stated: a record with both `end_time` and
`duration_seconds` present — but duration `0` — contributes nothing: the
summary of a collection holding only it is empty. -/
theorem C1_counterexample :
    recZeroDur.end_time.isSome = true ∧
    recZeroDur.duration_seconds.isSome = true ∧
    get_summary [recZeroDur] = ([], []) := by
  decide

/-! ## C2: the accumulation cells -/

/-- C2 (amended): the `(dk, cat)` cell of the summary exists exactly when
some kept record has date key `dk` (the first 10 characters of its
`start_time`) and category key `cat`, and it then holds the sum of the
durations of exactly those records; the category key falls back to the
literal `"other"` only when `activity_category` is *absent* — a record
whose category is the empty string accumulates under `""`, not under
`"other"`. -/
theorem C2_accumulation (activities : List ActivityRecord)
    (dk cat : String) :
    (lookup2 (get_summary activities).2 dk cat = none ↔
      ∀ a ∈ activities, matchesKey a dk cat = false) ∧
    (lookup2 (get_summary activities).2 dk cat).getD 0 =
      ((activities.filter (fun a => matchesKey a dk cat)).map
        recDur).sum := by
  constructor
  · have h := lookup2_fold_none activities dk cat []
    simpa [get_summary, lookup2, lookupA] using h
  · have h := lookup2_fold_getD activities dk cat []
    simpa [get_summary, lookup2, lookupA] using h

/-- Witness for C2: evaluating the accumulation theorem at the spec
example's cell sums the two sports records to 7200 seconds. -/
theorem C2_accumulation_witness :
    (lookup2 (get_summary [recSportsA, recSportsB]).2
      "2025-11-03" "sports").getD 0 = 7200 :=
  (C2_accumulation [recSportsA, recSportsB] "2025-11-03" "sports").2.trans
    (by decide)

/-- Counterexample to C2 as stated: a closed record whose
`activity_category` is present but empty is accumulated into the `""`
bucket, and the `"other"` bucket stays empty. -/
theorem C2_counterexample :
    recEmptyCat.activity_category = some "" ∧
    get_summary [recEmptyCat] =
      (["2025-11-03"], [("2025-11-03", [("", 1800)])]) ∧
    lookup2 (get_summary [recEmptyCat]).2 "2025-11-03" "other" = none ∧
    lookup2 (get_summary [recEmptyCat]).2 "2025-11-03" "" =
      some 1800 := by
  decide

/-! ## C8: the dates listing -/

/-- C8: the `dates` component is exactly the distinct date keys of the
`data` mapping — it is sorted ascending lexicographically, is a
permutation of the data keys, and has no duplicates — and on the two
closed `"sports"` records of 2025-11-03 with durations 5400 and 1800 the
summary is `(["2025-11-03"], {"2025-11-03": {"sports": 7200}})`. -/
theorem C8_dates_sorted (activities : List ActivityRecord) :
    List.Sorted (· ≤ ·) (get_summary activities).1 ∧
    List.Perm (get_summary activities).1
      ((get_summary activities).2.map Prod.fst) ∧
    (get_summary activities).1.Nodup ∧
    get_summary [recSportsA, recSportsB] =
      (["2025-11-03"], [("2025-11-03", [("sports", 7200)])]) := by
  have h1 : (get_summary activities).1 =
      List.insertionSort (fun x y => x ≤ y)
        ((activities.foldl summaryStep []).map (fun p => p.1)) := rfl
  have h2 : (get_summary activities).2 =
      activities.foldl summaryStep [] := rfl
  refine ⟨?_, ?_, ?_, by decide⟩
  · rw [h1]
    exact List.sorted_insertionSort _ _
  · rw [h1, h2]
    exact List.perm_insertionSort _ _
  · rw [h1]
    have hn : ((activities.foldl summaryStep []).map
        (fun p => p.1)).Nodup :=
      summary_fold_keys_nodup activities [] (by simp)
    exact ((List.perm_insertionSort _ _).nodup_iff).mpr hn

/-- Witness for C8: the concrete spec example, read off the theorem. -/
theorem C8_dates_sorted_witness :
    get_summary [recSportsA, recSportsB] =
      (["2025-11-03"], [("2025-11-03", [("sports", 7200)])]) :=
  (C8_dates_sorted []).2.2.2
